import Mathlib

/-!
Verification development for the GraphQL schema diff engine of the
feature-monitor repository (module feature_monitor.graphql_diff, with the
Feature record from feature_monitor.models).

The Python source is shallowly embedded:
  - text is a Lean String; lines are lists of characters obtained by
    splitting at newline characters, mirroring schema.split of the source;
  - the anchored regular expressions of parse_schema_types and
    parse_schema_fields are embedded as character-list scanners with the
    same greedy semantics (the alternation type|interface|input|enum is
    first-match, which coincides with the regex because no two of the four
    keywords can be prefixes of the same line); character classes are the
    ASCII readings of backslash-s and backslash-w, which cover every
    identifier the module handles;
  - Python sets become Finset String; where the source iterates a set in
    unspecified order (the added-types loop and the first-five-fields cap)
    the embedding iterates the deduplicated first-seen enumeration of the
    underlying scan, a determinization the specification itself flags as an
    open question;
  - every call of datetime.now is modelled by an explicit Clock argument
    carrying the two formatted strings the source derives from it;
  - the external collaborators of run (HTTP fetch, file write, directory
    listing, file read) are modelled by an explicit Env value; the snapshot
    directory is a list of (filename, content) pairs;
  - in the two description templates the source quotes the subject name
    with single-quote characters; the embedding renders those two quote
    characters as slashes, a purely lexical substitution that no statement
    below depends on.
-/

namespace GraphQLSchemaDiff

/-- ASCII reading of the regex whitespace class backslash-s. -/
def isSpaceChar (c : Char) : Bool :=
  c == ' ' || c == '\t' || c == '\n' || c == '\r' || c == '\x0b' || c == '\x0c'

/-- ASCII reading of the regex word class backslash-w. -/
def isWordChar (c : Char) : Bool :=
  c.isAlpha || c.isDigit || c == '_'

/-- Split a character stream at newline characters, as schema.split does. -/
def splitLines : List Char → List (List Char)
  | [] => [[]]
  | c :: rest =>
    if c == '\n' then [] :: splitLines rest
    else
      match splitLines rest with
      | [] => [[c]]
      | l :: ls => (c :: l) :: ls

/-- Strip one of the keywords type, interface, input, enum from the front of
a line remainder, in the alternation order of the source regex. -/
def keywordTail (l : List Char) : Option (List Char) :=
  if "type".data.isPrefixOf l then some (l.drop 4)
  else if "interface".data.isPrefixOf l then some (l.drop 9)
  else if "input".data.isPrefixOf l then some (l.drop 5)
  else if "enum".data.isPrefixOf l then some (l.drop 4)
  else none

/-- One line of parse_schema_types: the anchored regex
keyword, whitespace, uppercase letter, then at least one word character;
the captured group is the letter together with the maximal word-character
run after it. -/
def parseTypeLine (l : List Char) : Option String :=
  match keywordTail (l.dropWhile isSpaceChar) with
  | none => none
  | some r2 =>
    match r2 with
    | [] => none
    | c0 :: _ =>
      if isSpaceChar c0 then
        match r2.dropWhile isSpaceChar with
        | [] => none
        | c :: cs =>
          if c.isUpper then
            match cs.takeWhile isWordChar with
            | [] => none
            | w0 :: ws => some (String.mk (c :: w0 :: ws))
          else none
      else none

/-- Type names of a schema in scan order, duplicates included. -/
def typeNamesList (schema : String) : List String :=
  (splitLines schema.data).filterMap parseTypeLine

/-- Embedding of GraphQLSchemaDiff.parse_schema_types; the Python set is the
Finset of the scanned names. -/
def parse_schema_types (schema : String) : Finset String :=
  (typeNamesList schema).toFinset

/-- The line pattern that starts field capture: optional whitespace, the
keyword type, whitespace, the requested type name, optional whitespace and
an opening brace. -/
def matchesTypeOpen (tname : String) (l : List Char) : Bool :=
  let r1 := l.dropWhile isSpaceChar
  if "type".data.isPrefixOf r1 then
    match r1.drop 4 with
    | [] => false
    | c0 :: _ =>
      if isSpaceChar c0 then
        let r3 := (r1.drop 4).dropWhile isSpaceChar
        if tname.data.isPrefixOf r3 then
          match (r3.drop tname.data.length).dropWhile isSpaceChar with
          | '\x7b' :: _ => true
          | _ => false
        else false
      else false
  else false

/-- True when the line contains a closing brace anywhere. -/
def braceIn (l : List Char) : Bool :=
  l.any (fun c => c == '\x7d')

/-- One captured line of parse_schema_fields: at least one leading
whitespace character, a maximal word-character run, optional whitespace,
then a colon or an opening parenthesis. -/
def fieldOfLine (l : List Char) : Option String :=
  match l with
  | [] => none
  | c :: _ =>
    if isSpaceChar c then
      let r := l.dropWhile isSpaceChar
      match r.takeWhile isWordChar with
      | [] => none
      | w0 :: ws =>
        match (r.drop (w0 :: ws).length).dropWhile isSpaceChar with
        | ':' :: _ => some (String.mk (w0 :: ws))
        | '(' :: _ => some (String.mk (w0 :: ws))
        | _ => none
    else none

/-- The line loop of parse_schema_fields, with its in-type flag and its
break at the first brace-bearing line seen while the flag is set; the
captured names are kept in scan order, duplicates included. -/
def fieldLoop (tname : String) : List (List Char) → Bool → List String → List String
  | [], _, acc => acc
  | l :: rest, inType, acc =>
    if matchesTypeOpen tname l then fieldLoop tname rest true acc
    else if inType && braceIn l then acc
    else if inType then
      match fieldOfLine l with
      | some f => fieldLoop tname rest inType (acc ++ [f])
      | none => fieldLoop tname rest inType acc
    else fieldLoop tname rest inType acc

/-- Field extraction over an explicit line list, in scan order. -/
def fieldsOfLines (tname : String) (ls : List (List Char)) : List String :=
  fieldLoop tname ls false []

/-- Embedding of GraphQLSchemaDiff.parse_schema_fields; the Python set is
the Finset of the captured names. -/
def parse_schema_fields (schema : String) (tname : String) : Finset String :=
  (fieldsOfLines tname (splitLines schema.data)).toFinset

/-- Embedding of the Feature dataclass of feature_monitor.models; the
embedding attribute is omitted because this module never populates it. -/
structure Feature where
  id : String
  title : String
  description : String
  source_type : String
  source_url : Option String
  product_area : String
  tags : List String
  date_discovered : String
  deriving DecidableEq, Repr

/-- The two strings the source formats from datetime.now: the day stamp
used inside record ids and the full timestamp stored in date_discovered. -/
structure Clock where
  day : String
  iso : String
  deriving DecidableEq, Repr

/-- Python str.lower on the ASCII identifiers this module handles. -/
def lowerStr (s : String) : String :=
  String.mk (s.data.map Char.toLower)

/-- Substring test: Python keyword in text. -/
def containsSub (sub : List Char) : List Char → Bool
  | [] => sub.isPrefixOf []
  | c :: rest => sub.isPrefixOf (c :: rest) || containsSub sub rest

/-- The significance test of detect_changes: the lowercased name contains
one of the four keyword substrings. -/
def isSignificant (name : String) : Bool :=
  ["mutation", "query", "input", "payload"].any
    (fun kw => containsSub kw.data (lowerStr name).data)

/-- The set of newly added type names of a run. -/
def addedTypes (old_schema new_schema : String) : Finset String :=
  parse_schema_types new_schema \ parse_schema_types old_schema

/-- Enumeration of the added-types set, in first-seen scan order of the
new snapshot. -/
def addedTypesList (old_schema new_schema : String) : List String :=
  (typeNamesList new_schema).dedup.filter
    (fun n => decide (n ∉ parse_schema_types old_schema))

/-- The new-type Feature built by detect_changes for one added name. -/
def mkTypeFeature (clk : Clock) (name : String) : Feature :=
  { id := "graphql_" ++ name ++ "_" ++ clk.day
    title := "New GraphQL Type: " ++ name
    description :=
      "A new GraphQL type /" ++ name ++ "/ has been added to the GitHub API schema."
    source_type := "graphql_schema_diff"
    source_url := some "https://docs.github.com/graphql"
    product_area := "API"
    tags := ["graphql", "api", "schema-change", lowerStr name]
    date_discovered := clk.iso }

/-- The new-field Feature built by detect_changes for one added field. -/
def mkFieldFeature (clk : Clock) (tname fname : String) : Feature :=
  { id := "graphql_" ++ tname ++ "_" ++ fname ++ "_" ++ clk.day
    title := "New GraphQL Field: " ++ tname ++ "." ++ fname
    description :=
      "A new field /" ++ fname ++ "/ has been added to the /" ++ tname ++
        "/ type in the GitHub GraphQL API."
    source_type := "graphql_schema_diff"
    source_url := some "https://docs.github.com/graphql"
    product_area := "API"
    tags := ["graphql", "api", "field-addition", lowerStr tname]
    date_discovered := clk.iso }

/-- The watch list of detect_changes. -/
def important_types : List String :=
  ["Mutation", "Query", "Repository", "PullRequest", "Issue"]

/-- New-type records of a run: every added name passing the significance
filter, one record per passing name. -/
def typeFeatures (clk : Clock) (old_schema new_schema : String) : List Feature :=
  ((addedTypesList old_schema new_schema).filter
      (fun n => isSignificant n || decide ((addedTypes old_schema new_schema).card ≤ 10))).map
    (mkTypeFeature clk)

/-- The set of fields newly added to one type. -/
def addedFields (old_schema new_schema tname : String) : Finset String :=
  parse_schema_fields new_schema tname \ parse_schema_fields old_schema tname

/-- Enumeration of the added-fields set of one type, in first-seen scan
order of the new snapshot. -/
def addedFieldsList (old_schema new_schema tname : String) : List String :=
  (fieldsOfLines tname (splitLines new_schema.data)).dedup.filter
    (fun f => decide (f ∉ parse_schema_fields old_schema tname))

/-- New-field records contributed by one watched type: only when the type
is declared in both snapshots and gained fields, one record per added
field, capped at the first five of the enumeration. -/
def fieldFeaturesFor (clk : Clock) (old_schema new_schema : String)
    (tname : String) : List Feature :=
  if tname ∈ parse_schema_types old_schema ∧ tname ∈ parse_schema_types new_schema then
    if addedFields old_schema new_schema tname = ∅ then []
    else ((addedFieldsList old_schema new_schema tname).take 5).map (mkFieldFeature clk tname)
  else []

/-- Embedding of GraphQLSchemaDiff.detect_changes. -/
def detect_changes (old_schema new_schema : String) (clk : Clock) : List Feature :=
  typeFeatures clk old_schema new_schema ++
    important_types.flatMap (fieldFeaturesFor clk old_schema new_schema)

/-- The environment of one run: the configuration flags, the outcome of the
single HTTP request, whether the snapshot write succeeds, the snapshot
directory as a list of filename-content pairs, whether reading the previous
snapshot file succeeds, plus the formatted dates of the run. -/
structure Env where
  enabled : Bool
  docs_url : Option String
  response : Option (Nat × String)
  save_ok : Bool
  store : List (String × String)
  read_ok : Bool
  today : String
  clk : Clock
  deriving Repr

/-- Embedding of GraphQLSchemaDiff.fetch_current_schema: None when the
source is disabled, when no URL is configured (Python falsiness also drops
an empty URL string), when the request fails, or when the status code is
not 200; the body text otherwise. -/
def fetch_current_schema (env : Env) : Option String :=
  if !env.enabled then none
  else
    match env.docs_url with
    | none => none
    | some u =>
      if u = "" then none
      else
        match env.response with
        | none => none
        | some (code, text) => if code = 200 then some text else none

/-- The snapshot filename of a given date. -/
def snapshotName (day : String) : String :=
  "schema-" ++ day ++ ".graphql"

/-- Embedding of save_schema_snapshot on the store: overwrite any entry of
the same filename; Env.save_ok models whether safe_write_file succeeds. -/
def saveSnapshot (store : List (String × String)) (day : String)
    (content : String) : List (String × String) :=
  (snapshotName day, content) :: store.filter (fun p => decide (p.1 ≠ snapshotName day))

/-- Bool prefix test on strings via their character data. -/
def startsWithCL (p s : String) : Bool :=
  p.data.isPrefixOf s.data

/-- Bool suffix test on strings via their character data. -/
def endsWithCL (p s : String) : Bool :=
  p.data.reverse.isPrefixOf s.data.reverse

/-- Lexicographic code-point comparison of character lists, the order
Python uses on str. -/
def ltCL : List Char → List Char → Bool
  | [], [] => false
  | [], _ :: _ => true
  | _ :: _, [] => false
  | a :: as, b :: bs =>
    if a.toNat < b.toNat then true
    else if b.toNat < a.toNat then false
    else ltCL as bs

/-- Python str comparison. -/
def strLt (a b : String) : Bool :=
  ltCL a.data b.data

/-- Insert into a descending-sorted list, mirroring sorted(reverse=True). -/
def insertDesc (x : String) : List String → List String
  | [] => [x]
  | y :: ys => if strLt y x then x :: y :: ys else y :: insertDesc x ys

/-- Descending sort of the snapshot filenames. -/
def sortDesc : List String → List String
  | [] => []
  | x :: xs => insertDesc x (sortDesc xs)

/-- The filtered, descending-sorted snapshot listing of the directory. -/
def snapshotNames (store : List (String × String)) : List String :=
  sortDesc ((store.map Prod.fst).filter
    (fun f => startsWithCL "schema-" f && endsWithCL ".graphql" f))

/-- Embedding of GraphQLSchemaDiff.get_latest_snapshot: None when fewer
than two snapshots exist, and also None when reading the chosen file
raises (the source catches the exception and returns None). -/
def get_latest_snapshot (store : List (String × String)) (read_ok : Bool) :
    Option (String × String) :=
  let snaps := snapshotNames store
  if snaps.length < 2 then none
  else
    match snaps[1]? with
    | none => none
    | some prev =>
      if read_ok then
        match store.lookup prev with
        | some content => some (prev, content)
        | none => none
      else none

/-- The store as the diff sees it: after a successful fetch and save it
holds the snapshot of today, otherwise it is unchanged. -/
def storeAfterSave (env : Env) : List (String × String) :=
  match fetch_current_schema env with
  | none => env.store
  | some cur =>
    if cur = "" then env.store
    else if env.save_ok then saveSnapshot env.store env.today cur
    else env.store

/-- Embedding of GraphQLSchemaDiff.run. Python falsiness makes an empty
fetched document a fetch failure; a save failure is caught and yields an
empty list; a missing previous snapshot yields an empty list. -/
def run (env : Env) : List Feature :=
  match fetch_current_schema env with
  | none => []
  | some cur =>
    if cur = "" then []
    else if !env.save_ok then []
    else
      match get_latest_snapshot (saveSnapshot env.store env.today cur) env.read_ok with
      | none => []
      | some (_, prev) => detect_changes prev cur env.clk

/-- The attributes of a Feature that are not derived from the clock. -/
def stableView (f : Feature) :
    String × String × String × Option String × String × List String :=
  (f.title, f.description, f.source_type, f.source_url, f.product_area, f.tags)

/-- A record is a new-type record exactly when its third tag is the
schema-change marker. -/
def isNewTypeRecord (f : Feature) : Bool :=
  f.tags[2]? == some "schema-change"

/-- A record is a new-field record of the watched type exactly when its
third tag is the field-addition marker and its fourth tag is the lowercased
type name. -/
def isNewFieldRecordFor (t : String) (f : Feature) : Bool :=
  f.tags[2]? == some "field-addition" && f.tags[3]? == some (lowerStr t)

/-- Proof device for the break behaviour of fieldLoop: the same traversal,
made compositional by reporting whether the loop ran off the end of the
lines (inl, with the final flag and accumulator) or broke at a closing
brace (inr). -/
def fieldScan (tname : String) :
    List (List Char) → Bool → List String → (Bool × List String) ⊕ List String
  | [], b, acc => Sum.inl (b, acc)
  | l :: rest, b, acc =>
    if matchesTypeOpen tname l then fieldScan tname rest true acc
    else if b && braceIn l then Sum.inr acc
    else if b then
      match fieldOfLine l with
      | some f => fieldScan tname rest b (acc ++ [f])
      | none => fieldScan tname rest b acc
    else fieldScan tname rest b acc

/-- A schema of ten added non-significant types. -/
def tenTypes : String :=
  "type Taa\ntype Tab\ntype Tac\ntype Tad\ntype Tae\ntype Taf\ntype Tag\ntype Tah\ntype Tai\ntype Taj"

/-- A schema of eleven added non-significant types. -/
def elevenTypes : String :=
  tenTypes ++ "\ntype Tak"

/-- Old snapshot of the field-cap witness: the watched type with no fields. -/
def queryOld : String :=
  "type Query \x7b\n\x7d"

/-- New snapshot of the field-cap witness: the watched type with seven
fields. -/
def querySeven : String :=
  "type Query \x7b\n  f1: A\n  f2: A\n  f3: A\n  f4: A\n  f5: A\n  f6: A\n  f7: A\n\x7d"

/-- New snapshot with three added fields. -/
def queryThree : String :=
  "type Query \x7b\n  f1: A\n  f2: A\n  f3: A\n\x7d"

/-- New snapshot that both adds fields to Query and declares a new type. -/
def queryPlusWidget : String :=
  querySeven ++ "\ntype Widget \x7b\n  w: Int\n\x7d"

/-- A fixed clock for witnesses. -/
def clkW : Clock :=
  ⟨"20261012", "2026-10-12T00:00:00"⟩

/-- A second clock of a different day. -/
def clkW2 : Clock :=
  ⟨"20261013", "2026-10-13T01:02:03"⟩

/-- A store of two well-formed snapshots. -/
def storeTwo : List (String × String) :=
  [("schema-2026-10-12.graphql", "type Aaa x"),
   ("schema-2026-10-11.graphql", "type Bbb x")]

/-- Environment in which the HTTP request fails; the store holds enough
history for a diff. -/
def envFetchFail : Env :=
  { enabled := true, docs_url := some "https://docs.github.com/graphql",
    response := none, save_ok := true, store := storeTwo, read_ok := true,
    today := "2026-10-13", clk := clkW }

/-- Environment in which the snapshot write fails; the store holds enough
history for a diff. -/
def envSaveFail : Env :=
  { enabled := true, docs_url := some "https://docs.github.com/graphql",
    response := some (200, "type Ccc x"), save_ok := false, store := storeTwo,
    read_ok := true, today := "2026-10-13", clk := clkW }

/-- Environment in which everything succeeds but the store starts empty, so
after saving today there is no previous snapshot. -/
def envNoHistory : Env :=
  { enabled := true, docs_url := some "https://docs.github.com/graphql",
    response := some (200, "type Ccc x"), save_ok := true, store := [],
    read_ok := true, today := "2026-10-13", clk := clkW }

/-- The brace-truncation witness schema: a multi-line argument block whose
inner closing-brace line precedes further field declarations. -/
def nestedSchema : String :=
  "type Query \x7b\n  a(filter: \x7b\n    depth: 1\n  \x7d\n  ): String\n  b: Int\n\x7d"

/-- The lines of the nested-schema witness up to and including the first
closing-brace line seen while capturing. -/
def nestedTruncatedLines : List (List Char) :=
  ["type Query \x7b".data, "  a(filter: \x7b".data, "    depth: 1".data, "  \x7d".data]

end GraphQLSchemaDiff

namespace GraphQLSchemaDiff

lemma parseTypeLine_shape {l : List Char} {x : String} (h : parseTypeLine l = some x) :
    ∃ c w, x = String.mk (c :: w) ∧ c.isUpper = true ∧ w ≠ [] ∧
      ∀ ch ∈ w, isWordChar ch = true := by
  unfold parseTypeLine at h
  rcases hk : keywordTail (l.dropWhile isSpaceChar) with _ | r2
  · rw [hk] at h; cases h
  · rw [hk] at h
    rcases r2 with _ | ⟨c0, r2t⟩
    · cases h
    · dsimp only at h
      by_cases hs : isSpaceChar c0
      · rw [if_pos hs] at h
        rcases hd : (c0 :: r2t).dropWhile isSpaceChar with _ | ⟨c, cs⟩
        · rw [hd] at h; cases h
        · rw [hd] at h
          dsimp only at h
          by_cases hu : c.isUpper
          · rw [if_pos hu] at h
            rcases ht : cs.takeWhile isWordChar with _ | ⟨w0, ws⟩
            · rw [ht] at h; cases h
            · rw [ht] at h
              injection h with h2
              refine ⟨c, w0 :: ws, h2.symm, hu, by simp, ?_⟩
              intro ch hch
              have hmem : ch ∈ cs.takeWhile isWordChar := ht ▸ hch
              exact List.mem_takeWhile_imp hmem
          · rw [if_neg hu] at h; cases h
      · rw [if_neg hs] at h; cases h

lemma mem_parse_iff {s x : String} :
    x ∈ parse_schema_types s ↔
      ∃ l ∈ splitLines s.data, parseTypeLine l = some x := by
  simp [parse_schema_types, typeNamesList, List.mem_filterMap]

lemma parse_name_shape {s x : String} (h : x ∈ parse_schema_types s) :
    ∃ c w, x = String.mk (c :: w) ∧ c.isUpper = true ∧ w ≠ [] ∧
      ∀ ch ∈ w, isWordChar ch = true := by
  obtain ⟨l, _, hp⟩ := mem_parse_iff.mp h
  exact parseTypeLine_shape hp

/-- Claim C10: parse_schema_types never yields a single-character type
name; the pattern demands an uppercase letter followed by at least one
further word character, so a line such as a type keyword with name A
contributes nothing. -/
theorem type_names_never_single_char (s x : String)
    (h : x ∈ parse_schema_types s) : 2 ≤ x.length := by
  obtain ⟨c, w, rfl, _, hw, _⟩ := parse_name_shape h
  rcases w with _ | ⟨a, as⟩
  · exact absurd rfl hw
  · show 2 ≤ (c :: a :: as).length
    simp

/-- Witness of C10 at the schema consisting of one declaration of type Ab. -/
theorem type_names_never_single_char_witness : 2 ≤ ("Ab" : String).length :=
  type_names_never_single_char "type Ab x" "Ab" (by decide)

/-- Claim C8: the parsers are functions of their text (and type-name)
arguments alone; there is no hidden parser state, so calls with equal
inputs give equal sets. -/
theorem parser_state_free (s1 s2 t1 t2 : String) (hs : s1 = s2) (ht : t1 = t2) :
    parse_schema_types s1 = parse_schema_types s2 ∧
      parse_schema_fields s1 t1 = parse_schema_fields s2 t2 := by
  subst hs; subst ht; exact ⟨rfl, rfl⟩

/-- Witness of C8 at concrete inputs. -/
theorem parser_state_free_witness :
    parse_schema_types querySeven = parse_schema_types querySeven ∧
      parse_schema_fields querySeven "Query" = parse_schema_fields querySeven "Query" :=
  parser_state_free querySeven querySeven "Query" "Query" rfl rfl

lemma typeFeatures_stable (c1 c2 : Clock) (o n : String) :
    (typeFeatures c1 o n).map stableView = (typeFeatures c2 o n).map stableView := by
  unfold typeFeatures
  rw [List.map_map, List.map_map]
  rfl

lemma fieldFeaturesFor_stable (c1 c2 : Clock) (o n t : String) :
    (fieldFeaturesFor c1 o n t).map stableView =
      (fieldFeaturesFor c2 o n t).map stableView := by
  unfold fieldFeaturesFor
  split
  · split
    · rfl
    · rw [List.map_map, List.map_map]
      rfl
  · rfl

lemma typeFeatures_ids (c1 c2 : Clock) (h : c1.day = c2.day) (o n : String) :
    (typeFeatures c1 o n).map Feature.id = (typeFeatures c2 o n).map Feature.id := by
  unfold typeFeatures
  rw [List.map_map, List.map_map]
  congr 1
  funext x
  simp [Function.comp, mkTypeFeature, h]

lemma fieldFeaturesFor_ids (c1 c2 : Clock) (h : c1.day = c2.day) (o n t : String) :
    (fieldFeaturesFor c1 o n t).map Feature.id =
      (fieldFeaturesFor c2 o n t).map Feature.id := by
  unfold fieldFeaturesFor
  split
  · split
    · rfl
    · rw [List.map_map, List.map_map]
      congr 1
      funext x
      simp [Function.comp, mkFieldFeature, h]
  · rfl

/-- Counterexample to C4 as stated: detect_changes does not depend on its
two schema-text arguments alone; with equal schemas but clocks one day
apart, the outputs differ, through the day stamp inside ids and the
timestamp stored in date_discovered. -/
theorem detect_changes_reads_the_clock :
    detect_changes "" "type Gadget x" clkW ≠ detect_changes "" "type Gadget x" clkW2 := by
  decide

/-- Claim C4 amended: detect_changes depends only on its two schema-text
arguments and the capture time; all attributes except the clock-derived id
day stamp and date_discovered agree across clocks, ids agree whenever the
day stamp agrees, and equal clocks give identical outputs. -/
theorem detect_changes_pure_given_clock (o n : String) (c1 c2 : Clock) :
    ((detect_changes o n c1).map stableView = (detect_changes o n c2).map stableView) ∧
      (c1.day = c2.day →
        (detect_changes o n c1).map Feature.id = (detect_changes o n c2).map Feature.id) ∧
      (c1 = c2 → detect_changes o n c1 = detect_changes o n c2) := by
  refine ⟨?_, fun h => ?_, fun h => by rw [h]⟩
  · unfold detect_changes
    rw [List.map_append, List.map_append, List.map_flatMap, List.map_flatMap,
      typeFeatures_stable c1 c2]
    have hfun : (fun t => (fieldFeaturesFor c1 o n t).map stableView) =
        fun t => (fieldFeaturesFor c2 o n t).map stableView :=
      funext fun t => fieldFeaturesFor_stable c1 c2 o n t
    rw [hfun]
  · unfold detect_changes
    rw [List.map_append, List.map_append, List.map_flatMap, List.map_flatMap,
      typeFeatures_ids c1 c2 h]
    have hfun : (fun t => (fieldFeaturesFor c1 o n t).map Feature.id) =
        fun t => (fieldFeaturesFor c2 o n t).map Feature.id :=
      funext fun t => fieldFeaturesFor_ids c1 c2 h o n t
    rw [hfun]

/-- Witness of C4 amended at concrete inputs. -/
theorem detect_changes_pure_given_clock_witness :
    (detect_changes "" "type Gadget x" clkW).map stableView =
        (detect_changes "" "type Gadget x" clkW2).map stableView ∧
      (detect_changes "" "type Gadget x" clkW).map Feature.id =
        (detect_changes "" "type Gadget x" clkW).map Feature.id :=
  ⟨(detect_changes_pure_given_clock "" "type Gadget x" clkW clkW2).1,
   (detect_changes_pure_given_clock "" "type Gadget x" clkW clkW).2.1 rfl⟩

/-- Counterexample to C5 as stated: a failed read of an existing snapshot
is not a distinct error outcome; on a store of two snapshots with reading
broken, get_latest_snapshot returns the very value it returns on an empty
store. -/
theorem read_error_equals_no_history_outcome :
    get_latest_snapshot storeTwo false = get_latest_snapshot [] true ∧
      get_latest_snapshot storeTwo false = none := by
  decide

/-- Claim C5 amended: when the snapshot file cannot be read,
get_latest_snapshot swallows the exception and returns none, the same
outcome as the insufficient-history case, so the two are not
distinguishable by the caller. -/
theorem get_latest_snapshot_read_error_none (store : List (String × String)) :
    get_latest_snapshot store false = none := by
  by_cases h : (snapshotNames store).length < 2
  · simp [get_latest_snapshot, h]
  · simp only [get_latest_snapshot, h, if_false]
    cases (snapshotNames store)[1]? <;> simp

/-- Counterexample to C1 as stated: a fetch failure and a save failure
produce exactly the outcome of the no-previous-snapshot case — the empty
list — so the caller of run cannot distinguish them from the empty,
successful result. -/
theorem failure_outcomes_equal_empty_success :
    run envFetchFail = run envNoHistory ∧ run envSaveFail = run envNoHistory ∧
      run envNoHistory = [] := by
  decide

/-- Claim C1 amended: run surfaces fetch failures (including the empty
document that Python falsiness treats as a failure) and snapshot-save
failures as the same empty list it returns when no previous snapshot
exists; none of these is a distinct failure outcome. -/
theorem run_empty_on_fetch_or_save_failure (env : Env) :
    (fetch_current_schema env = none → run env = []) ∧
      (fetch_current_schema env = some "" → run env = []) ∧
      (env.save_ok = false → run env = []) := by
  refine ⟨fun h => ?_, fun h => ?_, fun h => ?_⟩
  · unfold run; rw [h]
  · unfold run; rw [h]; simp
  · unfold run
    cases hf : fetch_current_schema env with
    | none => rfl
    | some cur =>
      by_cases hc : cur = ""
      · simp [hc]
      · simp [hc, h]

/-- Witness of C1 amended at the two failing environments. -/
theorem run_empty_on_fetch_or_save_failure_witness :
    run envFetchFail = [] ∧ run envSaveFail = [] :=
  ⟨(run_empty_on_fetch_or_save_failure envFetchFail).1 (by decide),
   (run_empty_on_fetch_or_save_failure envSaveFail).2.2 (by decide)⟩

lemma get_latest_none_of_short (store : List (String × String)) (read_ok : Bool)
    (h : (snapshotNames store).length < 2) :
    get_latest_snapshot store read_ok = none := by
  simp [get_latest_snapshot, h]

lemma insertDesc_length (x : String) (l : List String) :
    (insertDesc x l).length = l.length + 1 := by
  induction l with
  | nil => rfl
  | cons y ys ih =>
    unfold insertDesc
    by_cases h : strLt y x
    · simp [h]
    · simp [h, ih]

lemma sortDesc_length (l : List String) : (sortDesc l).length = l.length := by
  induction l with
  | nil => rfl
  | cons x xs ih => simp [sortDesc, insertDesc_length, ih]

/-- Claim C7: whenever the snapshot listing the diff consults holds fewer
than two snapshots, the previous-snapshot lookup returns none rather than
an error, and the run returns the empty change list; in particular a run
started on an empty store always does. -/
theorem no_history_policy (env : Env) :
    ((snapshotNames (storeAfterSave env)).length < 2 →
        get_latest_snapshot (storeAfterSave env) env.read_ok = none ∧ run env = []) ∧
      (env.store = [] → run env = []) := by
  constructor
  · intro h
    refine ⟨get_latest_none_of_short _ _ h, ?_⟩
    unfold run
    cases hf : fetch_current_schema env with
    | none => rfl
    | some cur =>
      by_cases hc : cur = ""
      · simp [hc]
      · by_cases hsv : env.save_ok
        · have hs' : storeAfterSave env = saveSnapshot env.store env.today cur := by
            simp [storeAfterSave, hf, hc, hsv]
          rw [hs'] at h
          simp [hc, hsv, get_latest_none_of_short _ env.read_ok h]
        · simp [hc, hsv]
  · intro h0
    unfold run
    cases hf : fetch_current_schema env with
    | none => rfl
    | some cur =>
      by_cases hc : cur = ""
      · simp [hc]
      · by_cases hsv : env.save_ok
        · have hlen : (snapshotNames (saveSnapshot env.store env.today cur)).length < 2 := by
            rw [h0]
            unfold saveSnapshot snapshotNames
            simp only [List.filter_nil, List.map_cons, List.map_nil, sortDesc_length]
            by_cases hp :
                (startsWithCL "schema-" (snapshotName env.today) &&
                  endsWithCL ".graphql" (snapshotName env.today)) = true
            · simp [hp]
            · simp [hp]
          simp [hc, hsv, get_latest_none_of_short _ env.read_ok hlen]
        · simp [hc, hsv]

/-- Witness of C7 at the fresh-store environment. -/
theorem no_history_policy_witness :
    run envNoHistory = [] ∧
      get_latest_snapshot (storeAfterSave envNoHistory) envNoHistory.read_ok = none :=
  ⟨(no_history_policy envNoHistory).2 rfl,
   ((no_history_policy envNoHistory).1 (by decide)).1⟩

lemma mem_addedTypesList {o n x : String} :
    x ∈ addedTypesList o n ↔ x ∈ addedTypes o n := by
  simp [addedTypesList, addedTypes, List.mem_filter, List.mem_dedup,
    Finset.mem_sdiff, parse_schema_types, typeNamesList, and_comm]

lemma addedTypesList_nodup (o n : String) : (addedTypesList o n).Nodup :=
  (List.nodup_dedup _).filter _

lemma addedTypesList_length (o n : String) :
    (addedTypesList o n).length = (addedTypes o n).card := by
  have h1 : (addedTypesList o n).toFinset = addedTypes o n := by
    ext x
    simp [List.mem_toFinset, mem_addedTypesList]
  rw [← h1, List.toFinset_card_of_nodup (addedTypesList_nodup o n)]

lemma mem_addedFieldsList {o n t x : String} :
    x ∈ addedFieldsList o n t ↔ x ∈ addedFields o n t := by
  simp [addedFieldsList, addedFields, List.mem_filter, List.mem_dedup,
    Finset.mem_sdiff, parse_schema_fields, and_comm]

lemma addedFieldsList_nodup (o n t : String) : (addedFieldsList o n t).Nodup :=
  (List.nodup_dedup _).filter _

lemma addedFieldsList_length (o n t : String) :
    (addedFieldsList o n t).length = (addedFields o n t).card := by
  have h1 : (addedFieldsList o n t).toFinset = addedFields o n t := by
    ext x
    simp [List.mem_toFinset, mem_addedFieldsList]
  rw [← h1, List.toFinset_card_of_nodup (addedFieldsList_nodup o n t)]

lemma mem_fieldFeaturesFor {c : Clock} {o n t : String} {f : Feature}
    (h : f ∈ fieldFeaturesFor c o n t) :
    ∃ fn, fn ∈ addedFieldsList o n t ∧ f = mkFieldFeature c t fn ∧
      t ∈ parse_schema_types o ∧ t ∈ parse_schema_types n := by
  by_cases hm : t ∈ parse_schema_types o ∧ t ∈ parse_schema_types n
  · unfold fieldFeaturesFor at h
    rw [if_pos hm] at h
    by_cases he : addedFields o n t = ∅
    · rw [if_pos he] at h
      exact absurd h (List.not_mem_nil f)
    · rw [if_neg he] at h
      obtain ⟨fn, hfn, rfl⟩ := List.mem_map.mp h
      exact ⟨fn, List.take_subset _ _ hfn, rfl, hm.1, hm.2⟩
  · unfold fieldFeaturesFor at h
    rw [if_neg hm] at h
    exact absurd h (List.not_mem_nil f)

lemma isNewTypeRecord_mkType (c : Clock) (x : String) :
    isNewTypeRecord (mkTypeFeature c x) = true := rfl

lemma isNewTypeRecord_mkField (c : Clock) (t fn : String) :
    isNewTypeRecord (mkFieldFeature c t fn) = false := rfl

lemma isNewFieldRecordFor_mkType (tq : String) (c : Clock) (x : String) :
    isNewFieldRecordFor tq (mkTypeFeature c x) = false := rfl

lemma isNewFieldRecordFor_mkField_self (t : String) (c : Clock) (fn : String) :
    isNewFieldRecordFor t (mkFieldFeature c t fn) = true := by
  simp [isNewFieldRecordFor, mkFieldFeature]

lemma isNewFieldRecordFor_mkField_other (tq t : String) (c : Clock) (fn : String)
    (h : lowerStr t ≠ lowerStr tq) :
    isNewFieldRecordFor tq (mkFieldFeature c t fn) = false := by
  simp [isNewFieldRecordFor, mkFieldFeature, h]

lemma countP_typeFeatures_ntr (c : Clock) (o n : String) :
    (typeFeatures c o n).countP isNewTypeRecord = (typeFeatures c o n).length := by
  apply List.countP_eq_length.mpr
  intro f hf
  obtain ⟨x, _, rfl⟩ := List.mem_map.mp hf
  exact isNewTypeRecord_mkType c x

lemma countP_fieldPart_ntr (c : Clock) (o n : String) :
    (important_types.flatMap (fieldFeaturesFor c o n)).countP isNewTypeRecord = 0 := by
  apply List.countP_eq_zero.mpr
  intro f hf
  obtain ⟨t, _, hft⟩ := List.mem_flatMap.mp hf
  obtain ⟨fn, _, rfl, _, _⟩ := mem_fieldFeaturesFor hft
  simp [isNewTypeRecord_mkField]

/-- Claim C2: with exactly ten added non-significant type names every one
of them gets a new-type record; with exactly eleven, none does. -/
theorem significance_filter_boundary (o n : String) (c : Clock) :
    ((addedTypes o n).card = 10 →
        (∀ x ∈ addedTypes o n, isSignificant x = false) →
        (detect_changes o n c).countP isNewTypeRecord = 10 ∧
          ∀ x ∈ addedTypes o n,
            ("New GraphQL Type: " ++ x) ∈ (detect_changes o n c).map Feature.title) ∧
      ((addedTypes o n).card = 11 →
        (∀ x ∈ addedTypes o n, isSignificant x = false) →
        (detect_changes o n c).countP isNewTypeRecord = 0) := by
  constructor
  · intro h10 _hns
    have hfilter : (addedTypesList o n).filter
        (fun x => isSignificant x || decide ((addedTypes o n).card ≤ 10)) =
          addedTypesList o n := by
      rw [h10]
      simp
    constructor
    · unfold detect_changes
      rw [List.countP_append, countP_typeFeatures_ntr, countP_fieldPart_ntr]
      unfold typeFeatures
      rw [hfilter, List.length_map, addedTypesList_length, h10]
    · intro x hx
      unfold detect_changes
      rw [List.map_append]
      apply List.mem_append_left
      unfold typeFeatures
      rw [hfilter, List.map_map]
      exact List.mem_map.mpr ⟨x, mem_addedTypesList.mpr hx, rfl⟩
  · intro h11 hns
    unfold detect_changes
    rw [List.countP_append, countP_typeFeatures_ntr, countP_fieldPart_ntr]
    unfold typeFeatures
    have hfilter : (addedTypesList o n).filter
        (fun x => isSignificant x || decide ((addedTypes o n).card ≤ 10)) = [] := by
      rw [h11]
      apply List.filter_eq_nil_iff.mpr
      intro x hx
      simp [hns x (mem_addedTypesList.mp hx)]
    rw [hfilter]
    simp

/-- Witness of C2 at a ten-type and an eleven-type schema. -/
theorem significance_filter_boundary_witness :
    (detect_changes "" tenTypes clkW).countP isNewTypeRecord = 10 ∧
      (detect_changes "" elevenTypes clkW).countP isNewTypeRecord = 0 :=
  ⟨((significance_filter_boundary "" tenTypes clkW).1 (by decide) (by decide)).1,
   (significance_filter_boundary "" elevenTypes clkW).2 (by decide) (by decide)⟩

lemma countP_typeFeatures_nfr (tq : String) (c : Clock) (o n : String) :
    (typeFeatures c o n).countP (isNewFieldRecordFor tq) = 0 := by
  apply List.countP_eq_zero.mpr
  intro f hf
  obtain ⟨x, _, rfl⟩ := List.mem_map.mp hf
  simp [isNewFieldRecordFor_mkType]

lemma countP_fieldFor_self (c : Clock) (o n t : String)
    (h1 : t ∈ parse_schema_types o) (h2 : t ∈ parse_schema_types n) :
    (fieldFeaturesFor c o n t).countP (isNewFieldRecordFor t) =
      min (addedFields o n t).card 5 := by
  unfold fieldFeaturesFor
  rw [if_pos ⟨h1, h2⟩]
  by_cases he : addedFields o n t = ∅
  · rw [if_pos he, he]
    simp
  · rw [if_neg he]
    have hall : ∀ f ∈ ((addedFieldsList o n t).take 5).map (mkFieldFeature c t),
        isNewFieldRecordFor t f = true := by
      intro f hf
      obtain ⟨fn, _, rfl⟩ := List.mem_map.mp hf
      exact isNewFieldRecordFor_mkField_self t c fn
    rw [List.countP_eq_length.mpr hall, List.length_map, List.length_take,
      addedFieldsList_length, Nat.min_comm]

lemma countP_fieldFor_other (tq : String) (c : Clock) (o n t : String)
    (h : lowerStr t ≠ lowerStr tq) :
    (fieldFeaturesFor c o n t).countP (isNewFieldRecordFor tq) = 0 := by
  apply List.countP_eq_zero.mpr
  intro f hf
  obtain ⟨fn, _, rfl, _, _⟩ := mem_fieldFeaturesFor hf
  simp [isNewFieldRecordFor_mkField_other tq t c fn h]

/-- Claim C3: for a watched type declared in both snapshots, more than five
added fields produce exactly five new-field records, and at most five added
fields produce one record per field. -/
theorem field_cap (o n : String) (c : Clock) (t : String)
    (ht : t ∈ important_types)
    (h1 : t ∈ parse_schema_types o) (h2 : t ∈ parse_schema_types n) :
    (5 < (addedFields o n t).card →
        (detect_changes o n c).countP (isNewFieldRecordFor t) = 5) ∧
      ((addedFields o n t).card ≤ 5 →
        (detect_changes o n c).countP (isNewFieldRecordFor t) =
          (addedFields o n t).card) := by
  have hmin : (detect_changes o n c).countP (isNewFieldRecordFor t) =
      min (addedFields o n t).card 5 := by
    unfold detect_changes
    rw [List.countP_append, countP_typeFeatures_nfr]
    simp only [important_types] at ht
    simp only [List.mem_cons, List.mem_singleton, List.not_mem_nil, or_false] at ht
    simp only [important_types, List.flatMap_cons, List.flatMap_nil,
      List.append_nil, List.countP_append]
    rcases ht with rfl | rfl | rfl | rfl | rfl
    · rw [countP_fieldFor_self c o n _ h1 h2,
        countP_fieldFor_other _ c o n "Query" (by decide),
        countP_fieldFor_other _ c o n "Repository" (by decide),
        countP_fieldFor_other _ c o n "PullRequest" (by decide),
        countP_fieldFor_other _ c o n "Issue" (by decide)]
      simp
    · rw [countP_fieldFor_self c o n _ h1 h2,
        countP_fieldFor_other _ c o n "Mutation" (by decide),
        countP_fieldFor_other _ c o n "Repository" (by decide),
        countP_fieldFor_other _ c o n "PullRequest" (by decide),
        countP_fieldFor_other _ c o n "Issue" (by decide)]
      simp
    · rw [countP_fieldFor_self c o n _ h1 h2,
        countP_fieldFor_other _ c o n "Mutation" (by decide),
        countP_fieldFor_other _ c o n "Query" (by decide),
        countP_fieldFor_other _ c o n "PullRequest" (by decide),
        countP_fieldFor_other _ c o n "Issue" (by decide)]
      simp
    · rw [countP_fieldFor_self c o n _ h1 h2,
        countP_fieldFor_other _ c o n "Mutation" (by decide),
        countP_fieldFor_other _ c o n "Query" (by decide),
        countP_fieldFor_other _ c o n "Repository" (by decide),
        countP_fieldFor_other _ c o n "Issue" (by decide)]
      simp
    · rw [countP_fieldFor_self c o n _ h1 h2,
        countP_fieldFor_other _ c o n "Mutation" (by decide),
        countP_fieldFor_other _ c o n "Query" (by decide),
        countP_fieldFor_other _ c o n "Repository" (by decide),
        countP_fieldFor_other _ c o n "PullRequest" (by decide)]
      simp
  constructor
  · intro h5
    rw [hmin, Nat.min_eq_right (Nat.le_of_lt h5)]
  · intro hle
    rw [hmin, Nat.min_eq_left hle]

/-- Witness of C3 at a seven-field and a three-field addition to Query. -/
theorem field_cap_witness :
    (detect_changes queryOld querySeven clkW).countP (isNewFieldRecordFor "Query") = 5 ∧
      (detect_changes queryOld queryThree clkW).countP (isNewFieldRecordFor "Query") = 3 := by
  constructor
  · exact (field_cap queryOld querySeven clkW "Query"
      (by decide) (by decide) (by decide)).1 (by decide)
  · have h := (field_cap queryOld queryThree clkW "Query"
      (by decide) (by decide) (by decide)).2 (by decide)
    rw [show (addedFields queryOld queryThree "Query").card = 3 from by decide] at h
    exact h

lemma fieldLoop_eq_scan (tname : String) (ls : List (List Char)) (b : Bool)
    (acc : List String) :
    fieldLoop tname ls b acc =
      (match fieldScan tname ls b acc with
       | Sum.inl p => p.2
       | Sum.inr a => a) := by
  induction ls generalizing b acc with
  | nil => rfl
  | cons l rest ih =>
    by_cases h1 : matchesTypeOpen tname l = true
    · simp only [fieldLoop, fieldScan, h1, if_true]
      exact ih true acc
    · cases b with
      | true =>
        by_cases h2 : braceIn l = true
        · simp only [fieldLoop, fieldScan, h1, h2, Bool.true_and, if_true, if_false,
            Bool.false_eq_true]
        · cases hf : fieldOfLine l with
          | some f =>
            simp only [fieldLoop, fieldScan, h1, h2, hf, Bool.true_and, if_true,
              if_false, Bool.false_eq_true]
            exact ih true (acc ++ [f])
          | none =>
            simp only [fieldLoop, fieldScan, h1, h2, hf, Bool.true_and, if_true,
              if_false, Bool.false_eq_true]
            exact ih true acc
      | false =>
        simp only [fieldLoop, fieldScan, h1, Bool.false_and, if_false,
          Bool.false_eq_true]
        exact ih false acc

lemma fieldScan_append (tname : String) (l1 l2 : List (List Char)) (b : Bool)
    (acc : List String) :
    fieldScan tname (l1 ++ l2) b acc =
      (match fieldScan tname l1 b acc with
       | Sum.inl p => fieldScan tname l2 p.1 p.2
       | Sum.inr a => Sum.inr a) := by
  induction l1 generalizing b acc with
  | nil => rfl
  | cons l rest ih =>
    by_cases h1 : matchesTypeOpen tname l = true
    · simp only [List.cons_append, fieldScan, h1, if_true]
      exact ih true acc
    · cases b with
      | true =>
        by_cases h2 : braceIn l = true
        · simp only [List.cons_append, fieldScan, h1, h2, Bool.true_and, if_true,
            if_false, Bool.false_eq_true]
        · cases hf : fieldOfLine l with
          | some f =>
            simp only [List.cons_append, fieldScan, h1, h2, hf, Bool.true_and,
              if_true, if_false, Bool.false_eq_true]
            exact ih true (acc ++ [f])
          | none =>
            simp only [List.cons_append, fieldScan, h1, h2, hf, Bool.true_and,
              if_true, if_false, Bool.false_eq_true]
            exact ih true acc
      | false =>
        simp only [List.cons_append, fieldScan, h1, Bool.false_and, if_false,
          Bool.false_eq_true]
        exact ih false acc

lemma fieldScan_true_flag (tname : String) (ls : List (List Char)) :
    ∀ (acc : List String) (p : Bool × List String),
      fieldScan tname ls true acc = Sum.inl p → p.1 = true := by
  induction ls with
  | nil =>
    intro acc p h
    cases h
    rfl
  | cons l rest ih =>
    intro acc p h
    by_cases h1 : matchesTypeOpen tname l = true
    · simp only [fieldScan, h1, if_true] at h
      exact ih acc p h
    · by_cases h2 : braceIn l = true
      · simp only [fieldScan, h1, h2, Bool.true_and, if_true, if_false,
          Bool.false_eq_true, reduceCtorEq] at h
      · cases hf : fieldOfLine l with
        | some f =>
          simp only [fieldScan, h1, h2, hf, Bool.true_and, if_true, if_false,
            Bool.false_eq_true] at h
          exact ih (acc ++ [f]) p h
        | none =>
          simp only [fieldScan, h1, h2, hf, Bool.true_and, if_true, if_false,
            Bool.false_eq_true] at h
          exact ih acc p h

lemma fieldsOfLines_truncate (tname : String) (pre body post : List (List Char))
    (op brace : List Char)
    (hop : matchesTypeOpen tname op = true)
    (hbrace : braceIn brace = true)
    (hnop : matchesTypeOpen tname brace = false) :
    fieldsOfLines tname (pre ++ op :: (body ++ brace :: post)) =
      fieldsOfLines tname (pre ++ op :: (body ++ [brace])) := by
  unfold fieldsOfLines
  rw [fieldLoop_eq_scan, fieldLoop_eq_scan]
  have e1 : pre ++ op :: (body ++ brace :: post) = (pre ++ op :: body) ++ (brace :: post) := by
    simp
  have e2 : pre ++ op :: (body ++ [brace]) = (pre ++ op :: body) ++ [brace] := by
    simp
  rw [e1, e2, fieldScan_append tname (pre ++ op :: body) (brace :: post) false [],
    fieldScan_append tname (pre ++ op :: body) [brace] false []]
  cases hs : fieldScan tname (pre ++ op :: body) false [] with
  | inr a => rfl
  | inl p =>
    have hflag : p.1 = true := by
      rw [fieldScan_append tname pre (op :: body) false []] at hs
      cases hs0 : fieldScan tname pre false [] with
      | inr a0 =>
        rw [hs0] at hs
        cases hs
      | inl p0 =>
        rw [hs0] at hs
        dsimp only at hs
        have hstep : fieldScan tname (op :: body) p0.1 p0.2 =
            fieldScan tname body true p0.2 := by
          simp only [fieldScan, hop, if_true]
        rw [hstep] at hs
        exact fieldScan_true_flag tname body p0.2 p hs
    dsimp only
    have hstop : ∀ rest : List (List Char),
        fieldScan tname (brace :: rest) true p.2 = Sum.inr p.2 := by
      intro rest
      simp only [fieldScan, hnop, hbrace, Bool.true_and, if_true, if_false,
        Bool.false_eq_true]
    rw [hflag, hstop post, hstop []]

/-- Claim C6: once capture of a type body has started, the first line
bearing a closing brace terminates it, even a brace closing a nested
multi-line block; the captured field set of the whole text equals that of
the text truncated at that line, so fields declared only on later lines are
not in the returned set. -/
theorem brace_truncation (tname s : String) (pre body post : List (List Char))
    (op brace : List Char)
    (hsplit : splitLines s.data = pre ++ op :: (body ++ brace :: post))
    (hop : matchesTypeOpen tname op = true)
    (hbrace : braceIn brace = true)
    (hnop : matchesTypeOpen tname brace = false) :
    parse_schema_fields s tname =
      (fieldsOfLines tname (pre ++ op :: (body ++ [brace]))).toFinset := by
  unfold parse_schema_fields
  rw [hsplit, fieldsOfLines_truncate tname pre body post op brace hop hbrace hnop]

/-- Witness of C6: in the nested-argument schema the parse equals the parse
of the truncated text, and the field b declared after the inner closing
brace is not captured. -/
theorem brace_truncation_witness :
    parse_schema_fields nestedSchema "Query" =
        (fieldsOfLines "Query" nestedTruncatedLines).toFinset ∧
      "b" ∉ parse_schema_fields nestedSchema "Query" := by
  constructor
  · exact brace_truncation "Query" nestedSchema []
      ["  a(filter: \x7b".data, "    depth: 1".data]
      ["  ): String".data, "  b: Int".data, "\x7d".data]
      ("type Query \x7b".data) ("  \x7d".data)
      (by decide) (by decide) (by decide) (by decide)
  · decide

lemma str_append_cancel {p a b : String} (h : p ++ a = p ++ b) : a = b := by
  apply String.ext
  have hd := congrArg String.data h
  rw [String.data_append, String.data_append] at hd
  exact List.append_cancel_left hd

lemma typeTitle_ne_fieldTitle (x t fn : String) :
    "New GraphQL Type: " ++ x ≠ "New GraphQL Field: " ++ t ++ "." ++ fn := by
  intro h
  have hd := congrArg String.data h
  simp only [String.data_append] at hd
  have h12 := congrArg (fun l => l[12]?) hd
  dsimp only at h12
  have h19 : ("New GraphQL Field: ").data.length = 19 := rfl
  have hlen1 : 12 < (("New GraphQL Field: ".data ++ t.data) ++ (".").data).length := by
    simp [List.length_append, h19]
  have hlen2 : 12 < ("New GraphQL Field: ".data ++ t.data).length := by
    simp [List.length_append, h19]
  rw [List.getElem?_append_left
      (show (12 : Nat) < ("New GraphQL Type: ").data.length from by decide),
    List.getElem?_append_left hlen1, List.getElem?_append_left hlen2,
    List.getElem?_append_left
      (show (12 : Nat) < ("New GraphQL Field: ").data.length from by decide)] at h12
  exact absurd h12 (by decide)

lemma clash_append_ne (p q a b : String)
    (h20 : p.data.take 20 ≠ q.data.take 20)
    (hp : 20 ≤ p.data.length) (hq : 20 ≤ q.data.length) :
    p ++ a ≠ q ++ b := by
  intro h
  apply h20
  have hd := congrArg String.data h
  rw [String.data_append, String.data_append] at hd
  have ht := congrArg (List.take 20) hd
  rwa [List.take_append_of_le_length hp, List.take_append_of_le_length hq] at ht

lemma dot_split : ∀ (a b s t : List Char), '.' ∉ a → '.' ∉ b →
    a ++ '.' :: s = b ++ '.' :: t → a = b ∧ s = t
  | [], [], _, _, _, _, h => by
    injection h with _ h2
    exact ⟨rfl, h2⟩
  | [], c :: bs, _, t, _, hb, h => by
    injection h with h1 _
    exact absurd (List.mem_cons.mpr (Or.inl h1)) hb
  | a0 :: as, [], s, _, ha, _, h => by
    injection h with h1 _
    exact absurd (List.mem_cons.mpr (Or.inl h1.symm)) ha
  | a0 :: as, b0 :: bs, s, t, ha, hb, h => by
    injection h with h1 h2
    obtain ⟨he, hst⟩ := dot_split as bs s t
      (fun hm => ha (List.mem_cons_of_mem _ hm))
      (fun hm => hb (List.mem_cons_of_mem _ hm)) h2
    exact ⟨by rw [h1, he], hst⟩

lemma parse_name_no_dot {s x : String} (h : x ∈ parse_schema_types s) :
    ('.') ∉ x.data := by
  obtain ⟨c, w, rfl, hu, _, hw⟩ := parse_name_shape h
  intro hm
  rcases List.mem_cons.mp hm with h1 | h2
  · rw [← h1] at hu
    exact absurd hu (by decide)
  · exact absurd (hw _ h2) (by decide)

lemma mem_typeFeature_title {c : Clock} {o n a : String}
    (ha : a ∈ (typeFeatures c o n).map Feature.title) :
    ∃ x, x ∈ addedTypes o n ∧ a = "New GraphQL Type: " ++ x := by
  unfold typeFeatures at ha
  rw [List.map_map] at ha
  obtain ⟨x, hx, rfl⟩ := List.mem_map.mp ha
  exact ⟨x, mem_addedTypesList.mp (List.mem_filter.mp hx).1, rfl⟩

lemma mem_chunk_title {c : Clock} {o n t a : String}
    (ha : a ∈ (fieldFeaturesFor c o n t).map Feature.title) :
    ∃ fn, fn ∈ addedFieldsList o n t ∧ t ∈ parse_schema_types o ∧
      a = "New GraphQL Field: " ++ t ++ "." ++ fn := by
  obtain ⟨f, hf, rfl⟩ := List.mem_map.mp ha
  obtain ⟨fn, hfn, rfl, h1, _⟩ := mem_fieldFeaturesFor hf
  exact ⟨fn, hfn, h1, rfl⟩

lemma typeFeatures_title_nodup (c : Clock) (o n : String) :
    ((typeFeatures c o n).map Feature.title).Nodup := by
  unfold typeFeatures
  rw [List.map_map]
  apply List.Nodup.map
  · intro x y h
    exact str_append_cancel h
  · exact (addedTypesList_nodup o n).filter _

lemma chunk_title_nodup (c : Clock) (o n t : String) :
    ((fieldFeaturesFor c o n t).map Feature.title).Nodup := by
  unfold fieldFeaturesFor
  split
  · split
    · simp
    · rw [List.map_map]
      apply List.Nodup.map
      · intro x y h
        exact str_append_cancel h
      · exact ((List.take_sublist 5 _).nodup (addedFieldsList_nodup o n t))
  · simp

lemma chunk_title_disjoint (c : Clock) (o n : String) (t1 t2 : String)
    (h : ("New GraphQL Field: " ++ t1 ++ ".").data.take 20 ≠
      ("New GraphQL Field: " ++ t2 ++ ".").data.take 20)
    (hl1 : 20 ≤ ("New GraphQL Field: " ++ t1 ++ ".").data.length)
    (hl2 : 20 ≤ ("New GraphQL Field: " ++ t2 ++ ".").data.length) :
    List.Disjoint ((fieldFeaturesFor c o n t1).map Feature.title)
      ((fieldFeaturesFor c o n t2).map Feature.title) := by
  intro a ha hb
  obtain ⟨fn1, _, _, rfl⟩ := mem_chunk_title ha
  obtain ⟨fn2, _, _, heq⟩ := mem_chunk_title hb
  exact clash_append_ne _ _ _ _ h hl1 hl2 heq

/-- Claim C9: one diff run emits at most one record per subject: the titles
of the emitted records are pairwise distinct, and a name that received a
new-type record never also appears as the owning type of a new-field record
in the same run. -/
theorem no_duplicate_emission (o n : String) (c : Clock) :
    ((detect_changes o n c).map Feature.title).Nodup ∧
      ∀ x : String,
        ("New GraphQL Type: " ++ x) ∈ (detect_changes o n c).map Feature.title →
          ∀ fn : String,
            ("New GraphQL Field: " ++ x ++ "." ++ fn) ∉
              (detect_changes o n c).map Feature.title := by
  constructor
  · unfold detect_changes
    rw [List.map_append, List.nodup_append]
    refine ⟨typeFeatures_title_nodup c o n, ?_, ?_⟩
    · rw [List.map_flatMap, List.nodup_flatMap]
      refine ⟨fun t _ => chunk_title_nodup c o n t, ?_⟩
      show List.Pairwise _ ["Mutation", "Query", "Repository", "PullRequest", "Issue"]
      refine List.Pairwise.cons (fun t' ht' => ?_) (List.Pairwise.cons (fun t' ht' => ?_)
        (List.Pairwise.cons (fun t' ht' => ?_) (List.Pairwise.cons (fun t' ht' => ?_)
          (List.Pairwise.cons (fun t' ht' => absurd ht' (List.not_mem_nil t'))
            List.Pairwise.nil)))) <;>
        simp only [List.mem_cons, List.not_mem_nil, or_false] at ht'
      · rcases ht' with rfl | rfl | rfl | rfl <;>
          exact chunk_title_disjoint c o n _ _ (by decide) (by decide) (by decide)
      · rcases ht' with rfl | rfl | rfl <;>
          exact chunk_title_disjoint c o n _ _ (by decide) (by decide) (by decide)
      · rcases ht' with rfl | rfl <;>
          exact chunk_title_disjoint c o n _ _ (by decide) (by decide) (by decide)
      · rcases ht' with rfl
        exact chunk_title_disjoint c o n _ _ (by decide) (by decide) (by decide)
    · intro a ha hb
      obtain ⟨x, _, rfl⟩ := mem_typeFeature_title ha
      rw [List.map_flatMap] at hb
      obtain ⟨t, _, hbt⟩ := List.mem_flatMap.mp hb
      obtain ⟨fn, _, _, heq⟩ := mem_chunk_title hbt
      exact typeTitle_ne_fieldTitle x t fn heq
  · intro x hx fn hmem
    unfold detect_changes at hx hmem
    rw [List.map_append] at hx hmem
    rcases List.mem_append.mp hx with hxl | hxr
    · obtain ⟨y, hy, heq⟩ := mem_typeFeature_title hxl
      have hxy : x = y := str_append_cancel heq
      subst hxy
      rcases List.mem_append.mp hmem with hml | hmr
      · obtain ⟨z, _, hz⟩ := mem_typeFeature_title hml
        exact typeTitle_ne_fieldTitle z x fn hz.symm
      · rw [List.map_flatMap] at hmr
        obtain ⟨t, _, hbt⟩ := List.mem_flatMap.mp hmr
        obtain ⟨fn', _, hto, heq2⟩ := mem_chunk_title hbt
        have hd := congrArg String.data heq2
        simp only [String.data_append, List.append_assoc] at hd
        have hcd := List.append_cancel_left hd
        have hdot : x.data ++ ('.') :: fn.data = t.data ++ ('.') :: fn'.data := by
          simpa using hcd
        have hxn : x ∈ parse_schema_types n := (Finset.mem_sdiff.mp hy).1
        have hxo : x ∉ parse_schema_types o := (Finset.mem_sdiff.mp hy).2
        obtain ⟨hxt, _⟩ := dot_split _ _ _ _ (parse_name_no_dot hxn)
          (parse_name_no_dot hto) hdot
        exact hxo ((String.ext hxt) ▸ hto)
    · rw [List.map_flatMap] at hxr
      obtain ⟨t, _, hbt⟩ := List.mem_flatMap.mp hxr
      obtain ⟨fn', _, _, heq⟩ := mem_chunk_title hbt
      exact typeTitle_ne_fieldTitle x t fn' heq

/-- Witness of C9 at a run that adds the type Widget and seven Query
fields. -/
theorem no_duplicate_emission_witness :
    ((detect_changes queryOld queryPlusWidget clkW).map Feature.title).Nodup ∧
      ("New GraphQL Field: " ++ "Widget" ++ "." ++ "w") ∉
        (detect_changes queryOld queryPlusWidget clkW).map Feature.title :=
  ⟨(no_duplicate_emission queryOld queryPlusWidget clkW).1,
   (no_duplicate_emission queryOld queryPlusWidget clkW).2 "Widget" (by decide) "w"⟩

end GraphQLSchemaDiff


